import Mathlib

/-!
Verification development for the psychkosjerky stock-watch repository.

The repository has three Python scripts:
* `restock_watch.py`  — single-product sold-out watcher: fetches a page,
  decides sold-out via a badge regex, compares with a persisted state file
  and pushes WeChat notifications on transitions;
* `restock_monitor.py` — multi-product history logger: parses an embedded
  JSON context, appends per-variant CSV rows, optionally pushes a report;
* `plot_stock_history.py` — reads the CSV and renders a chart, windowing
  the data to the last N sampling batches.

Below, each Python function relevant to the claims is shallowly embedded as
an executable Lean definition over explicit inputs (HTTP outcomes, parsed
JSON values, epoch timestamps), and the claimed properties are proved about
those definitions.
-/

namespace RestockWatch

/-- A parsed JSON scalar as Python sees it after `json.loads`: the values the
state file's `sold_out` field can hold.  Python's `is None` / `is True` /
`is False` identity tests distinguish the singletons from every other value
(e.g. the string `"false"` or the integer `0`). -/
inductive PyVal where
  | none
  | bool (b : Bool)
  | int (n : Int)
  | str (s : String)
deriving DecidableEq, Repr

/-- The JSON document written by `save_state`: `{"sold_out": bool, "ts": int}`. -/
structure StateData where
  sold_out : Bool
  ts : Nat
deriving DecidableEq, Repr

/-- Model of `save_state(sold_out)` — serialises the current boolean and the
current epoch timestamp; the file is overwritten in place. -/
def save_state (sold_out : Bool) (ts : Nat) : StateData :=
  { sold_out := sold_out, ts := ts }

/-- Model of `load_prev()` — if the state file exists its parsed JSON object is
returned as-is; otherwise the dict `{"sold_out": None}`. -/
def load_prev (stateFile : Option (List (String × PyVal))) : List (String × PyVal) :=
  match stateFile with
  | some doc => doc
  | none => [("sold_out", PyVal.none)]

/-- Python dict lookup `d[k]` (first binding wins), `none` when the key is
absent (a `KeyError` in Python). -/
def dictGet (d : List (String × PyVal)) (k : String) : Option PyVal :=
  match d with
  | [] => Option.none
  | (k', v) :: rest => if k' = k then some v else dictGet rest k

/-- Value of `load_prev()["sold_out"]` as evaluated at the top of `main`. -/
def mainPrev (stateFile : Option (List (String × PyVal))) : Option PyVal :=
  dictGet (load_prev stateFile) "sold_out"

/-- Outcome of the HTTP POST to the Server酱 push gateway, as seen by the
caller of `requests.post` in `restock_watch.py`: either an exception during
the request, or a response with a status code. -/
inductive PostOutcome where
  | exn (msg : String)
  | status (code : Nat)
deriving DecidableEq, Repr

/-- Model of `restock_watch.py`'s `notify_wechat`: reads `os.environ["SERVERCHAN_SENDKEY"]`
(raising `KeyError` when absent), posts, then calls `r.raise_for_status()`,
which raises for any status ≥ 400.  Errors propagate to the caller. -/
def notify_wechat_watch (sendKey : Option String) (post : PostOutcome) :
    Except String Unit :=
  match sendKey with
  | Option.none => Except.error "KeyError: SERVERCHAN_SENDKEY"
  | some _ =>
    match post with
    | PostOutcome.exn msg => Except.error msg
    | PostOutcome.status code =>
      if code < 400 then Except.ok () else Except.error "HTTPError"

/-- The two notification messages `restock_watch.main` can push:
`soldOut` is the "❌ … 缺货提醒" (now sold out) message, `restocked` the
"✅ … 补货提醒" (restocked) message. -/
inductive Notification where
  | soldOut
  | restocked
deriving DecidableEq, Repr

/-- The externally observable effects of one run of `restock_watch.main`
(from the point where the current sold-out boolean has been computed):
which notification calls were made, whether/what `save_state` wrote, and
whether an exception propagated out of the run. -/
structure WatchResult where
  calls : List Notification
  saved : Option StateData
  exn : Option String
deriving DecidableEq, Repr

/-- The environment one run of the watcher's `main` executes in: the
`SERVERCHAN_SENDKEY` variable and the gateway's response to each of the two
possible notification POSTs. -/
structure WatchEnv where
  sendKey : Option String
  soldOutPost : PostOutcome
  restockPost : PostOutcome
deriving DecidableEq, Repr

/-- Model of `restock_watch.main` after `now = is_sold_out(html)`:

    if prev is None: save_state(now); return
    if prev is False and now is True: notify_wechat(缺货…)
    if prev is True and now is False: notify_wechat(补货…)
    save_state(now)

The two `if`s are checked in sequence; an exception raised inside
`notify_wechat` aborts the run before the final `save_state`. -/
def watchMain (prev : PyVal) (nowB : Bool) (ts : Nat) (env : WatchEnv) :
    WatchResult :=
  if prev = PyVal.none then
    { calls := [], saved := some (save_state nowB ts), exn := Option.none }
  else
    let step1 : List Notification × Option String :=
      if prev = PyVal.bool false ∧ nowB = true then
        match notify_wechat_watch env.sendKey env.soldOutPost with
        | Except.ok _ => ([Notification.soldOut], Option.none)
        | Except.error e => ([Notification.soldOut], some e)
      else ([], Option.none)
    match step1 with
    | (calls, some e) => { calls := calls, saved := Option.none, exn := some e }
    | (calls, Option.none) =>
      if prev = PyVal.bool true ∧ nowB = false then
        match notify_wechat_watch env.sendKey env.restockPost with
        | Except.ok _ =>
          { calls := calls ++ [Notification.restocked],
            saved := some (save_state nowB ts), exn := Option.none }
        | Except.error e =>
          { calls := calls ++ [Notification.restocked],
            saved := Option.none, exn := some e }
      else
        { calls := calls, saved := some (save_state nowB ts), exn := Option.none }

/-!
## The sold-out badge regex

`RE_SOLD_OUT_BADGE = re.compile(r'<span[^>]*class="[^"]*\bproduct-mark\b[^"]*\bsold-out\b', re.IGNORECASE)`

The pattern is hand-compiled into a backtracking matcher over `List Char`.
`re.search` with a backtracking engine succeeds iff some split of the input
matches the pattern, so each `[^X]*` is modelled by a scan that tries the
continuation at every prefix of non-`X` characters, and each literal by a
case-insensitive prefix match.  `\b` is the word boundary between a `\w`
character and a non-`\w` character (or the string edge); the page HTML is
ASCII, so `\w` is modelled as `[A-Za-z0-9_]` and `re.IGNORECASE` as ASCII
case folding. -/

/-- ASCII lower-casing, how `re.IGNORECASE` folds the ASCII letters. -/
def asciiLower (c : Char) : Char :=
  if 'A' ≤ c ∧ c ≤ 'Z' then Char.ofNat (c.toNat + 32) else c

/-- Python's `\w` on ASCII input: `[A-Za-z0-9_]`. -/
def isWordChar (c : Char) : Bool :=
  ('a' ≤ c && c ≤ 'z') || ('A' ≤ c && c ≤ 'Z') || ('0' ≤ c && c ≤ '9') || c = '_'

/-- Case-insensitive literal prefix match: `some rest` when the input starts
with the pattern up to ASCII case, `none` otherwise. -/
def matchLitCI : List Char → List Char → Option (List Char)
  | [], s => some s
  | _ :: _, [] => Option.none
  | p :: ps, c :: cs => if asciiLower c = asciiLower p then matchLitCI ps cs else Option.none

/-- Boundary `\b` at the pattern's end (after `sold-out`, whose last character is a
word character): the next input character is a non-word character, or the
input ends. -/
def tailBoundary (rest : List Char) : Bool :=
  match rest with
  | [] => true
  | c :: _ => !isWordChar c

/-- Piece `\bsold-out\b` at the current position, `prev` being the character just
before it (needed for the leading `\b`; `s` of `sold-out` is a word
character, so `prev` must not be one). -/
def matchSoldOut (prev : Char) (s : List Char) : Bool :=
  !isWordChar prev &&
    (match matchLitCI "sold-out".toList s with
     | some rest => tailBoundary rest
     | Option.none => false)

/-- Piece `[^"]*\bsold-out\b`: try `\bsold-out\b` here, else consume one non-quote
character and continue. -/
def scanSoldOut : Char → List Char → Bool
  | prev, [] => matchSoldOut prev []
  | prev, c :: cs => matchSoldOut prev (c :: cs) || (decide (c ≠ '"') && scanSoldOut c cs)

/-- Piece `\bproduct-mark\b[^"]*\bsold-out\b` at the current position.  After the
literal, the matched character for `k` is a word character regardless of
case, so the scan continues with `prev = k`. -/
def matchProductMark (prev : Char) (s : List Char) : Bool :=
  !isWordChar prev &&
    (match matchLitCI "product-mark".toList s with
     | some rest => tailBoundary rest && scanSoldOut 'k' rest
     | Option.none => false)

/-- Piece `[^"]*\bproduct-mark\b[^"]*\bsold-out\b`. -/
def scanProductMark : Char → List Char → Bool
  | prev, [] => matchProductMark prev []
  | prev, c :: cs => matchProductMark prev (c :: cs) || (decide (c ≠ '"') && scanProductMark c cs)

/-- Piece `[^>]*class="…` after the `<span` literal: try the `class="` literal
here (the character before the class value is then `"`), else consume one
non-`>` character and continue. -/
def scanClassAttr : List Char → Bool
  | [] => false
  | c :: cs =>
    (match matchLitCI "class=\"".toList (c :: cs) with
     | some rest => scanProductMark '"' rest
     | Option.none => false)
    || (decide (c ≠ '>') && scanClassAttr cs)

/-- The whole pattern anchored at the current position. -/
def matchBadgeAt (s : List Char) : Bool :=
  match matchLitCI "<span".toList s with
  | some rest => scanClassAttr rest
  | Option.none => false

/-- Model of `RE_SOLD_OUT_BADGE.search`: the pattern matches at some position. -/
def searchBadge : List Char → Bool
  | [] => matchBadgeAt []
  | c :: cs => matchBadgeAt (c :: cs) || searchBadge cs

/-- Model of `is_sold_out(html)`: `bool(RE_SOLD_OUT_BADGE.search(html))`. -/
def is_sold_out (html : String) : Bool :=
  searchBadge html.toList

end RestockWatch

namespace RestockMonitor

/-!
## `restock_monitor.py`: the history logger and its notifier
-/

/-- A variant's stock sub-object as passed to `save_history`: either the
dict built by `parse_variants` (both keys present) or the empty dict `{}`
that `variants.get(spice, {})` yields for a missing variant; `.get` defaults
fill in `0` / `False` for absent keys. -/
structure StockDict where
  quantity : Option Int
  unlimited : Option Bool
deriving DecidableEq, Repr

/-- The empty dict `{}` — default of `variants.get(spice, {})`. -/
def emptyStock : StockDict := { quantity := Option.none, unlimited := Option.none }

/-- Model of `variants.get(spice, {})`: first binding for the key, else `{}`. -/
def variantsGet (variants : List (String × StockDict)) (spice : String) : StockDict :=
  match variants with
  | [] => emptyStock
  | (k, v) :: rest => if k = spice then v else variantsGet rest spice

/-- First binding for the key, `none` when absent (`spice in variants` is
false); used to phrase "no matching variant". -/
def variantsFind (variants : List (String × StockDict)) (spice : String) : Option StockDict :=
  match variants with
  | [] => Option.none
  | (k, v) :: rest => if k = spice then some v else variantsFind rest spice

/-- The value of `now()` at the moment `save_history` writes: the ISO string
and the epoch seconds derived from the same instant. -/
structure PTime where
  iso : String
  unixTs : Int
deriving DecidableEq, Repr

/-- One data row of `stock_history.csv`, in header order. -/
structure HistRow where
  timestamp : String
  unix_ts : Int
  product_slug : String
  product_name : String
  spice_level : String
  quantity : Int
  unlimited : Bool
  sold_out : Bool
deriving DecidableEq, Repr

/-- Model of `save_history(product_slug, product_name, spice, stock_info)`: the pair
(header row written?, data row appended).  The header is written only when
the file did not yet exist; the data row takes `quantity`/`unlimited` from
the stock dict with defaults `0`/`False` and derives
`sold_out = not unlimited and qty == 0`. -/
def save_history (product_slug product_name spice : String) (stock_info : StockDict)
    (fileExists : Bool) (t : PTime) : Bool × HistRow :=
  let qty := stock_info.quantity.getD 0
  let unlimited := stock_info.unlimited.getD false
  let sold_out := !unlimited && decide (qty = 0)
  (!fileExists,
   { timestamp := t.iso, unix_ts := t.unixTs, product_slug := product_slug,
     product_name := product_name, spice_level := spice,
     quantity := qty, unlimited := unlimited, sold_out := sold_out })

/-- What the gateway interaction inside `notify_wechat`'s `try` block
produced: an exception anywhere up to/including `json.loads` (network
failure, a non-2xx status — `urlopen` raises `HTTPError` for those — or
malformed JSON), or a parsed JSON body, of which the code reads the fields
`code` and `message`. -/
inductive DeliveryOutcome where
  | exn (msg : String)
  | jsonBody (code : Option Int) (message : Option String)
deriving DecidableEq, Repr

/-- The console lines `notify_wechat` can print. -/
inductive NotifyLog where
  | fallbackPrint (title content : String)
  | apiResponse
  | notified (title : String)
  | notifyFailed (message : String)
  | notifyError (msg : String)
deriving DecidableEq, Repr

/-- The body of `notify_wechat`'s `try:` block in `restock_monitor.py`:
`Except.error` is a raised exception, `Except.ok` the printed log lines. -/
def notify_try_body (title : String) (out : DeliveryOutcome) :
    Except String (List NotifyLog) :=
  match out with
  | DeliveryOutcome.exn msg => Except.error msg
  | DeliveryOutcome.jsonBody code message =>
    Except.ok (NotifyLog.apiResponse ::
      (if code = some 0 then [NotifyLog.notified title]
       else [NotifyLog.notifyFailed (message.getD "Unknown error")]))

/-- Model of `restock_monitor.py`'s `notify_wechat`: `os.environ.get` (no exception;
`if not send_key` treats an absent or empty key as the print-only fallback),
then the `try` block with `except Exception` turning any raised error into a
`[NOTIFY ERROR]` line.  The return type keeps `Except` so that "returns
normally" is the statement `∃ logs, … = Except.ok logs`. -/
def notify_wechat (sendKey : Option String) (title content : String)
    (out : DeliveryOutcome) : Except String (List NotifyLog) :=
  match sendKey with
  | Option.none => Except.ok [NotifyLog.fallbackPrint title content]
  | some k =>
    if k = "" then Except.ok [NotifyLog.fallbackPrint title content]
    else
      match notify_try_body title out with
      | Except.ok logs => Except.ok logs
      | Except.error e => Except.ok [NotifyLog.notifyError e]

end RestockMonitor

namespace PlotStockHistory

/-!
## `plot_stock_history.py`: windowing to the last N sampling batches
-/

/-- One row of the loaded data frame, reduced to what `filter_last_runs`
inspects: the `unix_ts` batch key (an integer in every row the logger
writes, so `dropna` on it is a no-op) plus the remaining columns, abstracted
as an opaque payload that keeps rows of one batch distinguishable. -/
structure Row where
  unix_ts : Int
  payload : Nat
deriving DecidableEq, Repr

/-- Model of `drop_duplicates()` on a single column: keep the first occurrence of
each value, preserving order; `seen` accumulates the values already kept. -/
def dedupFirst (seen : List Int) : List Int → List Int
  | [] => []
  | x :: xs => if x ∈ seen then dedupFirst seen xs else x :: dedupFirst (x :: seen) xs

/-- Model of `filter_last_runs(df, runs)`: empty frames pass through; otherwise the
key column (`unix_ts` is present in the source's CSV header) is
deduplicated, sorted ascending, cut to its last `runs` entries
(`tail(runs)`), and the frame is filtered to rows whose key is in that
list (`df[df[key].isin(recent_keys)]`). -/
def filter_last_runs (df : List Row) (runs : Nat) : List Row :=
  if df.isEmpty then df
  else
    let keys := df.map Row.unix_ts
    let uniq := dedupFirst [] keys
    let sorted := uniq.mergeSort (fun a b => decide (a ≤ b))
    let recent := sorted.drop (sorted.length - runs)
    df.filter (fun r => r.unix_ts ∈ recent)

end PlotStockHistory

/-- Whether an `Except` computation returned normally (no exception). -/
def exceptOk {ε α : Type} : Except ε α → Bool
  | Except.ok _ => true
  | Except.error _ => false

/-- The exact badge marker named by the spec. -/
def badgeMarker : String := "<span class=\"product-mark sold-out\">"

/-- A page with only the weak signals: "Add to Cart", "Purchase" and even a
raw "Sold Out" text, but no badge element. -/
def weakSignalsHtml : String :=
  "<div>Add to Cart</div> <button>Purchase</button> Sold Out"

namespace Claims

open RestockWatch RestockMonitor PlotStockHistory

/-- C1: For every pair of boolean previous/current sold-out states, the
watcher's main run fires a notification iff previous differs from current,
and it makes exactly one notification call per qualifying run: false→true
fires the "now sold out" message, true→false the "restocked" message, equal
states fire nothing — in any environment, whatever the gateway answers. -/
theorem transition_fires_exactly_once (p c : Bool) (ts : Nat) (env : WatchEnv) :
    (watchMain (PyVal.bool p) c ts env).calls =
      (if p = c then []
       else if c then [Notification.soldOut] else [Notification.restocked]) := by
  cases p <;> cases c <;>
    cases h1 : notify_wechat_watch env.sendKey env.soldOutPost <;>
    cases h2 : notify_wechat_watch env.sendKey env.restockPost <;>
    simp [watchMain, h1, h2]

/-- C5: On the first-ever run the state file is absent, `load_prev` yields
`{"sold_out": None}`, and for either observed value the watcher sends no
notification, persists the observed boolean with the current timestamp, and
completes without error. -/
theorem first_run_records_without_notifying (nowB : Bool) (ts : Nat) (env : WatchEnv) :
    mainPrev Option.none = some PyVal.none ∧
    (watchMain PyVal.none nowB ts env).calls = [] ∧
    (watchMain PyVal.none nowB ts env).saved = some { sold_out := nowB, ts := ts } ∧
    (watchMain PyVal.none nowB ts env).exn = Option.none :=
  ⟨rfl, rfl, rfl, rfl⟩

/-- C10: If the state file parses but its `sold_out` field is neither the
boolean `True`, the boolean `False`, nor `None` (e.g. the string `"false"`),
the identity comparisons in `main` all fail: no notification fires for
either observed state and the file is overwritten with the current
boolean. -/
theorem nonbool_state_field_never_notifies (v : PyVal)
    (h1 : v ≠ PyVal.none) (h2 : v ≠ PyVal.bool true) (h3 : v ≠ PyVal.bool false)
    (nowB : Bool) (ts : Nat) (env : WatchEnv) :
    mainPrev (some [("sold_out", v)]) = some v ∧
    (watchMain v nowB ts env).calls = [] ∧
    (watchMain v nowB ts env).saved = some { sold_out := nowB, ts := ts } := by
  refine ⟨rfl, ?_, ?_⟩ <;> simp [watchMain, save_state, h1, h2, h3]

/-- Witness for C10 at the concrete field value `"false"`. -/
theorem nonbool_state_field_never_notifies_witness :
    mainPrev (some [("sold_out", PyVal.str "false")]) = some (PyVal.str "false") ∧
    (watchMain (PyVal.str "false") true 0
      { sendKey := some "key", soldOutPost := PostOutcome.status 200,
        restockPost := PostOutcome.status 200 }).calls = [] ∧
    (watchMain (PyVal.str "false") true 0
      { sendKey := some "key", soldOutPost := PostOutcome.status 200,
        restockPost := PostOutcome.status 200 }).saved =
      some { sold_out := true, ts := 0 } :=
  nonbool_state_field_never_notifies (PyVal.str "false")
    (by decide) (by decide) (by decide) true 0 _

/-- C3 counterexample: with previous state `false`, current `true`, and the
push gateway answering HTTP 500, `r.raise_for_status()` raises inside
`notify_wechat`, the run aborts, and the state file is NOT overwritten —
refuting "the state file is overwritten … regardless of the outcome of the
notification attempt". -/
theorem notify_failure_skips_save_cex :
    (watchMain (PyVal.bool false) true 7
      { sendKey := some "key", soldOutPost := PostOutcome.status 500,
        restockPost := PostOutcome.status 200 }).saved = Option.none ∧
    (watchMain (PyVal.bool false) true 7
      { sendKey := some "key", soldOutPost := PostOutcome.status 500,
        restockPost := PostOutcome.status 200 }).calls = [Notification.soldOut] ∧
    (watchMain (PyVal.bool false) true 7
      { sendKey := some "key", soldOutPost := PostOutcome.status 500,
        restockPost := PostOutcome.status 200 }).exn = some "HTTPError" :=
  ⟨rfl, rfl, rfl⟩

/-- C3 (amended): the state file is overwritten with the observed boolean
and current timestamp exactly when the run raises no exception; a
notification attempt that raises (HTTP error or missing send key) aborts the
run before `save_state`. -/
theorem state_saved_iff_run_completes (prev : PyVal) (nowB : Bool) (ts : Nat)
    (env : WatchEnv) :
    (watchMain prev nowB ts env).saved =
      (if (watchMain prev nowB ts env).exn = Option.none
       then some { sold_out := nowB, ts := ts } else Option.none) := by
  by_cases h0 : prev = PyVal.none
  · simp [watchMain, save_state, h0]
  · by_cases h1 : prev = PyVal.bool false ∧ nowB = true
    · cases hn : notify_wechat_watch env.sendKey env.soldOutPost <;>
        simp [watchMain, save_state, h0, h1, hn, h1.1]
    · by_cases h2 : prev = PyVal.bool true ∧ nowB = false
      · cases hn : notify_wechat_watch env.sendKey env.restockPost <;>
          simp [watchMain, save_state, h0, h1, h2, hn]
      · simp [watchMain, save_state, h0, h1, h2]

/-- C4 counterexample: `restock_watch.py`'s `notify_wechat` does NOT return
normally on every input — a 500 from the push gateway makes
`raise_for_status` raise, and the error propagates to the caller. -/
theorem notify_watch_propagates_cex :
    notify_wechat_watch (some "key") (PostOutcome.status 500) =
      Except.error "HTTPError" :=
  rfl

/-- C4 (amended): `restock_monitor.py`'s `notify_wechat` returns normally on
every input, and an exception raised during delivery is caught and logged as
a `[NOTIFY ERROR]` line; `restock_watch.py`'s `notify_wechat`, by contrast,
propagates any HTTP error status (≥ 400) to its caller. -/
theorem notify_error_handling_split :
    (∀ (sendKey : Option String) (title content : String) (out : DeliveryOutcome),
        exceptOk (RestockMonitor.notify_wechat sendKey title content out) = true) ∧
    (∀ (key : String) (code : Nat), 400 ≤ code →
        exceptOk (notify_wechat_watch (some key) (PostOutcome.status code)) = false) ∧
    (∀ (key title content msg : String), key ≠ "" →
        RestockMonitor.notify_wechat (some key) title content (DeliveryOutcome.exn msg) =
          Except.ok [NotifyLog.notifyError msg]) := by
  refine ⟨?_, ?_, ?_⟩
  · intro sendKey title content out
    cases sendKey with
    | none => rfl
    | some k =>
      by_cases hk : k = "" <;>
        cases out <;>
          simp [RestockMonitor.notify_wechat, notify_try_body, hk, exceptOk]
  · intro key code hcode
    have hlt : ¬ code < 400 := Nat.not_lt.mpr hcode
    simp [notify_wechat_watch, exceptOk, hlt]
  · intro key title content msg hk
    simp [RestockMonitor.notify_wechat, notify_try_body, hk]

/-- Witness for C4 (amended) at concrete inputs. -/
theorem notify_error_handling_split_witness :
    exceptOk (RestockMonitor.notify_wechat (some "sk") "t" "c"
      (DeliveryOutcome.exn "boom")) = true ∧
    exceptOk (notify_wechat_watch (some "sk") (PostOutcome.status 500)) = false ∧
    RestockMonitor.notify_wechat (some "sk") "t" "c" (DeliveryOutcome.exn "boom") =
      Except.ok [NotifyLog.notifyError "boom"] :=
  ⟨notify_error_handling_split.1 (some "sk") "t" "c" _,
   notify_error_handling_split.2.1 "sk" 500 (by decide),
   notify_error_handling_split.2.2 "sk" "t" "c" "boom" (by decide)⟩

/-- The badge regex matches somewhere in a suffix, hence in the whole. -/
theorem searchBadge_append_of_right (xs ys : List Char)
    (h : searchBadge ys = true) : searchBadge (xs ++ ys) = true := by
  induction xs with
  | nil => simpa using h
  | cons c cs ih => simp [searchBadge, ih]

/-- A match anchored at the front gives a search hit. -/
theorem searchBadge_of_matchBadgeAt (l : List Char)
    (h : matchBadgeAt l = true) : searchBadge l = true := by
  cases l <;> simp [searchBadge, h]

/-- The matcher accepts the exact badge marker wherever it is followed by
anything: the whole pattern is consumed inside the marker itself. -/
theorem matchBadgeAt_marker (rest : List Char) :
    matchBadgeAt (badgeMarker.toList ++ rest) = true :=
  rfl

/-- C2: `is_sold_out` is decided by the badge regex alone: any HTML
containing the exact badge marker `<span class="product-mark sold-out">`
yields `true` whatever surrounds it, while HTML carrying only the weak
substring signals ("Add to Cart", "Purchase", raw "Sold Out" text) and no
badge yields `false`. -/
theorem is_sold_out_badge_decides :
    (∀ s1 s2 : String, is_sold_out (s1 ++ badgeMarker ++ s2) = true) ∧
    is_sold_out weakSignalsHtml = false := by
  constructor
  · intro s1 s2
    show searchBadge (s1 ++ badgeMarker ++ s2).data = true
    rw [String.data_append, String.data_append]
    rw [List.append_assoc]
    exact searchBadge_append_of_right _ _
      (searchBadge_of_matchBadgeAt _ (matchBadgeAt_marker s2.data))
  · rfl

/-- C9: the badge detection is order-sensitive — an element carrying both
classes but listing `sold-out` before `product-mark` is NOT detected, while
the canonical order is. -/
theorem badge_detection_order_sensitive :
    is_sold_out "<span class=\"sold-out product-mark\">" = false ∧
    is_sold_out "<span class=\"product-mark sold-out\">" = true :=
  ⟨rfl, rfl⟩

/-- C7: for every stock sub-object carrying both fields, the `sold_out`
value written to the CSV row is `not unlimited and quantity == 0`; in
particular an unlimited item is never recorded sold out, whatever its
quantity. -/
theorem csv_sold_out_derivation (sl pn sp : String) (q : Int) (fe : Bool) (t : PTime) :
    ∀ u : Bool,
      ((save_history sl pn sp { quantity := some q, unlimited := some u } fe t).2).sold_out
        = (!u && decide (q = 0)) ∧
      ((save_history sl pn sp { quantity := some q, unlimited := some true } fe t).2).sold_out
        = false := by
  intro u
  constructor <;> simp [save_history]

/-- C8: a configured spice level with no matching variant gets the empty
dict from `variants.get(spice, {})`, so the appended row records quantity 0,
unlimited false, sold_out true — indistinguishable from confirmed zero
stock. -/
theorem missing_variant_logged_sold_out (variants : List (String × StockDict))
    (spice sl pn : String) (fe : Bool) (t : PTime)
    (h : variantsFind variants spice = Option.none) :
    variantsGet variants spice = emptyStock ∧
    ((save_history sl pn spice (variantsGet variants spice) fe t).2).quantity = 0 ∧
    ((save_history sl pn spice (variantsGet variants spice) fe t).2).unlimited = false ∧
    ((save_history sl pn spice (variantsGet variants spice) fe t).2).sold_out = true := by
  have hget : variantsGet variants spice = emptyStock := by
    induction variants with
    | nil => rfl
    | cons kv rest ih =>
      obtain ⟨k, v⟩ := kv
      by_cases hk : k = spice
      · simp [variantsFind, hk] at h
      · simp [variantsFind, hk] at h
        simp [variantsGet, hk, ih h]
  refine ⟨hget, ?_, ?_, ?_⟩ <;> simp [hget, save_history, emptyStock]

/-- Witness for C8: a variants dict holding only `medium`, asked for
`spicy`. -/
theorem missing_variant_logged_sold_out_witness :
    variantsGet [("medium", { quantity := some 12, unlimited := some false })] "spicy"
      = emptyStock ∧
    ((save_history "crispy-savory" "Medium Crispy Savory" "spicy"
        (variantsGet [("medium", { quantity := some 12, unlimited := some false })] "spicy")
        true { iso := "2026-01-01T00:00:00-08:00", unixTs := 1767225600 }).2).quantity = 0 ∧
    ((save_history "crispy-savory" "Medium Crispy Savory" "spicy"
        (variantsGet [("medium", { quantity := some 12, unlimited := some false })] "spicy")
        true { iso := "2026-01-01T00:00:00-08:00", unixTs := 1767225600 }).2).unlimited = false ∧
    ((save_history "crispy-savory" "Medium Crispy Savory" "spicy"
        (variantsGet [("medium", { quantity := some 12, unlimited := some false })] "spicy")
        true { iso := "2026-01-01T00:00:00-08:00", unixTs := 1767225600 }).2).sold_out = true :=
  missing_variant_logged_sold_out _ "spicy" "crispy-savory" "Medium Crispy Savory"
    true _ (by decide)

/-- Membership in `dedupFirst`: kept iff present in the input and not
already seen. -/
theorem mem_dedupFirst (x : Int) (l : List Int) :
    ∀ seen, x ∈ dedupFirst seen l ↔ x ∈ l ∧ x ∉ seen := by
  induction l with
  | nil => intro seen; simp [dedupFirst]
  | cons y ys ih =>
    intro seen
    by_cases hy : y ∈ seen <;> by_cases hxy : x = y
    · subst hxy
      rw [dedupFirst, if_pos hy, ih]
      simp [hy]
    · rw [dedupFirst, if_pos hy, ih]
      simp [List.mem_cons, hxy]
    · subst hxy
      rw [dedupFirst, if_neg hy]
      simp [List.mem_cons, hy]
    · rw [dedupFirst, if_neg hy]
      simp [List.mem_cons, hxy, ih]

/-- Lemma: `dedupFirst` never keeps a value twice. -/
theorem nodup_dedupFirst (l : List Int) : ∀ seen, (dedupFirst seen l).Nodup := by
  induction l with
  | nil => intro seen; simp [dedupFirst]
  | cons y ys ih =>
    intro seen
    by_cases hy : y ∈ seen
    · rw [dedupFirst, if_pos hy]; exact ih seen
    · rw [dedupFirst, if_neg hy]
      refine List.Nodup.cons ?_ (ih (y :: seen))
      intro hmem
      rcases (mem_dedupFirst y ys (y :: seen)).1 hmem with ⟨_, hns⟩
      exact hns (List.mem_cons_self y seen)

/-- Counting a disjunction of pointwise-exclusive predicates splits into a
sum. -/
theorem countP_disjoint {α : Type} (p q : α → Bool) (l : List α)
    (h : ∀ a ∈ l, ¬(p a = true ∧ q a = true)) :
    l.countP (fun a => p a || q a) = l.countP p + l.countP q := by
  induction l with
  | nil => simp
  | cons a l ih =>
    have ha := h a (List.mem_cons_self a l)
    have hrest : ∀ b ∈ l, ¬(p b = true ∧ q b = true) :=
      fun b hb => h b (List.mem_cons_of_mem a hb)
    rw [List.countP_cons, List.countP_cons, List.countP_cons, ih hrest]
    by_cases hp : p a = true <;> by_cases hq : q a = true
    · exact absurd ⟨hp, hq⟩ ha
    · simp [hp, hq]; omega
    · simp [hp, hq]; omega
    · simp [hp, hq]

/-- Filtering by membership in a duplicate-free key list counts each key's
rows once. -/
theorem length_filter_key_mem (df : List Row) :
    ∀ qs : List Int, qs.Nodup →
      (df.filter (fun r => decide (r.unix_ts ∈ qs))).length =
        (qs.map (fun q => (df.filter (fun r => decide (r.unix_ts = q))).length)).sum := by
  intro qs
  induction qs with
  | nil => intro _; simp
  | cons q qs ih =>
    intro hnd
    rw [List.nodup_cons] at hnd
    obtain ⟨hq, hnd2⟩ := hnd
    have hdisj : ∀ r : Row, r ∈ df →
        ¬(decide (r.unix_ts = q) = true ∧ decide (r.unix_ts ∈ qs) = true) := by
      rintro r _ ⟨h1, h2⟩
      rw [decide_eq_true_eq] at h1 h2
      exact hq (h1 ▸ h2)
    calc (df.filter (fun r => decide (r.unix_ts ∈ q :: qs))).length
        = df.countP (fun r => decide (r.unix_ts = q) || decide (r.unix_ts ∈ qs)) := by
          rw [← List.countP_eq_length_filter]
          congr 1
          funext r
          simp [List.mem_cons]
      _ = df.countP (fun r => decide (r.unix_ts = q))
            + df.countP (fun r => decide (r.unix_ts ∈ qs)) :=
          countP_disjoint _ _ df hdisj
      _ = ((q :: qs).map (fun q => (df.filter (fun r => decide (r.unix_ts = q))).length)).sum := by
          rw [List.map_cons, List.sum_cons, List.countP_eq_length_filter,
            List.countP_eq_length_filter, ih hnd2]

/-- Summing a constant-valued map gives length times the constant. -/
theorem sum_map_of_const {f : Int → Nat} {k : Nat} :
    ∀ qs : List Int, (∀ q ∈ qs, f q = k) → (qs.map f).sum = qs.length * k := by
  intro qs
  induction qs with
  | nil => intro _; simp
  | cons q qs ih =>
    intro h
    rw [List.map_cons, List.sum_cons, ih (fun b hb => h b (List.mem_cons_of_mem q hb)),
      h q (List.mem_cons_self q qs), List.length_cons]
    ring

/-- Core of the windowing argument, for any duplicate-free strictly-sorted
enumeration `sorted` of the batch keys: cutting to the last `N` keys keeps
`min M N` keys, hence `min M N * k` rows, the kept rows' keys dominate the
dropped rows' keys, and when `M ≤ N` nothing is dropped. -/
theorem window_core (df : List Row) (ks : List Int) (k N : Nat) (sorted : List Int)
    (hnd : ks.Nodup)
    (hcover : ∀ r ∈ df, r.unix_ts ∈ ks)
    (hcount : ∀ q ∈ ks, (df.filter (fun r => decide (r.unix_ts = q))).length = k)
    (hs_mem : ∀ x, x ∈ sorted ↔ x ∈ ks)
    (hs_nd : sorted.Nodup)
    (hs_lt : sorted.Pairwise (fun a b : Int => a < b)) :
    ((df.filter (fun r => decide (r.unix_ts ∈ sorted.drop (sorted.length - N)))).length
        = min ks.length N * k) ∧
    (∀ r ∈ df,
        r ∉ df.filter (fun r => decide (r.unix_ts ∈ sorted.drop (sorted.length - N))) →
        ∀ r' ∈ df.filter (fun r => decide (r.unix_ts ∈ sorted.drop (sorted.length - N))),
          r.unix_ts < r'.unix_ts) ∧
    (ks.length ≤ N →
        df.filter (fun r => decide (r.unix_ts ∈ sorted.drop (sorted.length - N))) = df) := by
  have hperm : sorted.Perm ks := (List.perm_ext_iff_of_nodup hs_nd hnd).2 hs_mem
  have hs_len : sorted.length = ks.length := hperm.length_eq
  have hr_sub : (sorted.drop (sorted.length - N)).Sublist sorted := List.drop_sublist _ _
  have hr_nd : (sorted.drop (sorted.length - N)).Nodup := hr_sub.nodup hs_nd
  have hr_len : (sorted.drop (sorted.length - N)).length = min ks.length N := by
    rw [List.length_drop]; omega
  refine ⟨?_, ?_, ?_⟩
  · rw [length_filter_key_mem df _ hr_nd,
      sum_map_of_const _ (fun q hq => hcount q ((hs_mem q).1 (hr_sub.subset hq))), hr_len]
  · intro r hr hnotin r' hr'
    rcases List.mem_filter.1 hr' with ⟨_, hr'rec⟩
    rw [decide_eq_true_eq] at hr'rec
    have hrrec : r.unix_ts ∉ sorted.drop (sorted.length - N) := by
      intro hmem
      exact hnotin (List.mem_filter.2 ⟨hr, by simp [hmem]⟩)
    have hrsorted : r.unix_ts ∈ sorted := (hs_mem _).2 (hcover r hr)
    rw [← List.take_append_drop (sorted.length - N) sorted] at hrsorted
    have hrtake : r.unix_ts ∈ sorted.take (sorted.length - N) := by
      rcases List.mem_append.1 hrsorted with h | h
      · exact h
      · exact absurd h hrrec
    have hs_lt2 := hs_lt
    rw [← List.take_append_drop (sorted.length - N) sorted] at hs_lt2
    exact (List.pairwise_append.1 hs_lt2).2.2 _ hrtake _ hr'rec
  · intro hMN
    apply List.filter_eq_self.2
    intro r hr
    have h0 : sorted.length - N = 0 := by omega
    rw [h0, List.drop_zero, decide_eq_true_eq]
    exact (hs_mem _).2 (hcover r hr)

/-- C6: for a frame whose rows partition into `M = ks.length` batches of `k`
rows each (same batch ⇔ same `unix_ts` key, distinct batches ⇔ distinct
keys), `filter_last_runs` with parameter `N` returns exactly `min M N * k`
rows, the returned rows are those of the `N` largest batch keys (every
dropped row's key is strictly below every kept row's key), and the whole
frame comes back when `M ≤ N`. -/
theorem windowing_last_batches (df : List Row) (ks : List Int) (k N : Nat)
    (hnd : ks.Nodup)
    (hcover : ∀ r ∈ df, r.unix_ts ∈ ks)
    (hcount : ∀ q ∈ ks, (df.filter (fun r => decide (r.unix_ts = q))).length = k) :
    ((filter_last_runs df N).length = min ks.length N * k) ∧
    (∀ r ∈ df, r ∉ filter_last_runs df N →
        ∀ r' ∈ filter_last_runs df N, r.unix_ts < r'.unix_ts) ∧
    (ks.length ≤ N → filter_last_runs df N = df) := by
  cases df with
  | nil =>
    refine ⟨?_, ?_, ?_⟩
    · cases ks with
      | nil => simp [filter_last_runs]
      | cons q ks2 =>
        have h0 := hcount q (List.mem_cons_self q ks2)
        simp only [List.filter_nil, List.length_nil] at h0
        simp [filter_last_runs, ← h0]
    · intro r hr; cases hr
    · intro _; rfl
  | cons r0 df2 =>
    have hk0 : 0 < k := by
      have h1 : r0.unix_ts ∈ ks := hcover r0 (List.mem_cons_self r0 df2)
      have h2 := hcount _ h1
      have h3 : r0 ∈ (r0 :: df2).filter (fun r => decide (r.unix_ts = r0.unix_ts)) :=
        List.mem_filter.2 ⟨List.mem_cons_self r0 df2, by simp⟩
      have h4 := List.length_pos_of_mem h3
      omega
    have hmem_uniq : ∀ x, x ∈ dedupFirst [] ((r0 :: df2).map Row.unix_ts) ↔ x ∈ ks := by
      intro x
      rw [mem_dedupFirst]
      simp only [List.not_mem_nil, not_false_iff, and_true]
      constructor
      · intro hx
        rcases List.mem_map.1 hx with ⟨r, hrdf, hrx⟩
        exact hrx ▸ hcover r hrdf
      · intro hx
        have hlen := hcount x hx
        have hne : ((r0 :: df2).filter (fun r => decide (r.unix_ts = x))) ≠ [] := by
          intro hnil
          rw [hnil] at hlen
          simp only [List.length_nil] at hlen
          omega
        rcases List.exists_mem_of_ne_nil _ hne with ⟨r, hrmem⟩
        rcases List.mem_filter.1 hrmem with ⟨hrdf, hrx⟩
        rw [decide_eq_true_eq] at hrx
        exact List.mem_map.2 ⟨r, hrdf, hrx⟩
    have huq_nd : (dedupFirst [] ((r0 :: df2).map Row.unix_ts)).Nodup :=
      nodup_dedupFirst _ []
    have hs_mem : ∀ x,
        x ∈ (dedupFirst [] ((r0 :: df2).map Row.unix_ts)).mergeSort
              (fun a b => decide (a ≤ b)) ↔ x ∈ ks :=
      fun x => (List.mem_mergeSort).trans (hmem_uniq x)
    have hs_nd : ((dedupFirst [] ((r0 :: df2).map Row.unix_ts)).mergeSort
        (fun a b => decide (a ≤ b))).Nodup :=
      (List.mergeSort_perm _ _).symm.nodup huq_nd
    have hs_le : ((dedupFirst [] ((r0 :: df2).map Row.unix_ts)).mergeSort
        (fun a b => decide (a ≤ b))).Pairwise (fun a b : Int => a ≤ b) := by
      have h := @List.sorted_mergeSort Int (fun a b : Int => decide (a ≤ b))
        (fun a b c h1 h2 => by
          rw [decide_eq_true_eq] at h1 h2 ⊢; omega)
        (fun a b => by
          rcases le_total a b with h | h <;> simp [h])
        (dedupFirst [] ((r0 :: df2).map Row.unix_ts))
      exact h.imp (fun hab => by rwa [decide_eq_true_eq] at hab)
    have hs_lt : ((dedupFirst [] ((r0 :: df2).map Row.unix_ts)).mergeSort
        (fun a b => decide (a ≤ b))).Pairwise (fun a b : Int => a < b) :=
      (hs_le.and hs_nd).imp (fun h => lt_of_le_of_ne h.1 h.2)
    exact window_core (r0 :: df2) ks k N _ hnd hcover hcount hs_mem hs_nd hs_lt

/-- Witness for C6: three batches of two rows each, windowed to the last
two. -/
theorem windowing_last_batches_witness :
    ((filter_last_runs [⟨10, 0⟩, ⟨10, 1⟩, ⟨20, 0⟩, ⟨20, 1⟩, ⟨30, 0⟩, ⟨30, 1⟩] 2).length
        = min ([10, 20, 30] : List Int).length 2 * 2) ∧
    (∀ r ∈ ([⟨10, 0⟩, ⟨10, 1⟩, ⟨20, 0⟩, ⟨20, 1⟩, ⟨30, 0⟩, ⟨30, 1⟩] : List Row),
        r ∉ filter_last_runs [⟨10, 0⟩, ⟨10, 1⟩, ⟨20, 0⟩, ⟨20, 1⟩, ⟨30, 0⟩, ⟨30, 1⟩] 2 →
        ∀ r' ∈ filter_last_runs [⟨10, 0⟩, ⟨10, 1⟩, ⟨20, 0⟩, ⟨20, 1⟩, ⟨30, 0⟩, ⟨30, 1⟩] 2,
          r.unix_ts < r'.unix_ts) ∧
    (([10, 20, 30] : List Int).length ≤ 2 →
        filter_last_runs [⟨10, 0⟩, ⟨10, 1⟩, ⟨20, 0⟩, ⟨20, 1⟩, ⟨30, 0⟩, ⟨30, 1⟩] 2
          = [⟨10, 0⟩, ⟨10, 1⟩, ⟨20, 0⟩, ⟨20, 1⟩, ⟨30, 0⟩, ⟨30, 1⟩]) :=
  windowing_last_batches [⟨10, 0⟩, ⟨10, 1⟩, ⟨20, 0⟩, ⟨20, 1⟩, ⟨30, 0⟩, ⟨30, 1⟩]
    [10, 20, 30] 2 2 (by decide) (by decide) (by decide)

end Claims
